import Mathlib

/-!
Verification of the `plt` drawing-area geometry: the unit-interval-to-device
mapping, the squish re-layout algorithm, the polyline clipper, and the glyph
drawing dispatch.  Machine floating-point values (`float64` / `vg.Length`) are
modelled as exact rationals; the `math.Inf` sentinels used to initialise the
squish scan are modelled by `Option ℚ` with `none` playing the role of the
infinity that every finite value beats.  The canvas is an external capability:
commands issued to it are modelled as a trace list.
-/

namespace Plt

/-- A point is a location in 2d space (source `point`, two `vg.Length` fields). -/
@[ext]
structure point where
  x : ℚ
  y : ℚ
  deriving DecidableEq, Repr

/-- dot returns the dot product of two points. -/
def point.dot (p q : point) : ℚ := p.x * q.x + p.y * q.y

/-- plus returns the component-wise sum of two points. -/
def point.plus (p q : point) : point := ⟨p.x + q.x, p.y + q.y⟩

/-- minus returns the component-wise difference of two points. -/
def point.minus (p q : point) : point := ⟨p.x - q.x, p.y - q.y⟩

/-- scale returns the component-wise product of a point and a scalar. -/
def point.scale (p : point) (s : ℚ) : point := ⟨p.x * s, p.y * s⟩

/-- A rect represents a rectangular region of 2d space. -/
@[ext]
structure rect where
  min : point
  size : point
  deriving DecidableEq, Repr

/-- max returns the maximum x and y values of a rect. -/
def rect.max (r : rect) : point :=
  ⟨r.min.x + r.size.x, r.min.y + r.size.y⟩

/-- A drawArea is a vector graphics canvas along with an associated rect.
The canvas is an external capability shared by reference between derived
areas; only the rect is state, so only the rect is carried here. -/
structure drawArea where
  rect : rect
  deriving DecidableEq, Repr

/-- contains returns true if the drawArea contains the point. -/
def drawArea.contains (da : drawArea) (p : point) : Bool :=
  decide (p.x ≤ da.rect.max.x) && decide (p.x ≥ da.rect.min.x) &&
    decide (p.y ≤ da.rect.max.y) && decide (p.y ≥ da.rect.min.y)

/-- x maps a unit-range value into the drawing coordinates of this draw area
(source: `vg.Length(x)*(da.max().x-da.min.x) + da.min.x`). -/
def drawArea.x (da : drawArea) (u : ℚ) : ℚ :=
  u * (da.rect.max.x - da.rect.min.x) + da.rect.min.x

/-- y maps a unit-range value into the drawing coordinates of this draw area. -/
def drawArea.y (da : drawArea) (u : ℚ) : ℚ :=
  u * (da.rect.max.y - da.rect.min.y) + da.rect.min.y

/-- A glyphBox describes the location of a glyph and the offset/size of its
bounding box. -/
structure glyphBox where
  x : ℚ
  y : ℚ
  rect : rect
  deriving DecidableEq, Repr

/-- The accumulator of the squish scan: the anchors of the extreme boxes and
the running extreme edges.  `none` models the `math.Inf(1)` / `math.Inf(-1)`
initial values, which every finite edge beats. -/
structure squishAcc where
  left : ℚ
  minx : Option ℚ
  right : ℚ
  maxx : Option ℚ
  deriving Repr

/-- `x < minx` where `none` is the `+Inf` sentinel. -/
def ltSent (x : ℚ) : Option ℚ → Bool
  | none => true
  | some v => decide (x < v)

/-- `x > maxx` where `none` is the `-Inf` sentinel. -/
def gtSent (x : ℚ) : Option ℚ → Bool
  | none => true
  | some v => decide (v < x)

/-- One iteration of the scan in `squishX`: update the running minimum
absolute left edge and maximum absolute right edge and their anchors. -/
def squishXStep (da : drawArea) (acc : squishAcc) (b : glyphBox) : squishAcc :=
  let acc1 := if ltSent (da.x b.x + b.rect.min.x) acc.minx then
      { acc with left := b.x, minx := some (da.x b.x + b.rect.min.x) }
    else acc
  if gtSent (da.x b.x + b.rect.min.x + b.rect.size.x) acc1.maxx then
    { acc1 with right := b.x, maxx := some (da.x b.x + b.rect.min.x + b.rect.size.x) }
  else acc1

/-- The scan of `squishX` over the supplied boxes plus the two synthetic
boundary boxes `glyphBox{}` and `glyphBox{x: 1}`. -/
def squishXAcc (da : drawArea) (boxes : List glyphBox) : squishAcc :=
  (boxes ++ [glyphBox.mk 0 0 ⟨⟨0, 0⟩, ⟨0, 0⟩⟩, glyphBox.mk 1 0 ⟨⟨0, 0⟩, ⟨0, 0⟩⟩]).foldl
    (squishXStep da) ⟨0, none, 0, none⟩

/-- The clamp `if minx >= da.min.x { minx = da.min.x }`; the `none` (`+Inf`)
sentinel always clamps. -/
def clampLo (m : Option ℚ) (lo : ℚ) : ℚ :=
  match m with
  | none => lo
  | some v => if v ≥ lo then lo else v

/-- The clamp `if maxx <= da.max().x { maxx = da.max().x }`; the `none`
(`-Inf`) sentinel always clamps. -/
def clampHi (m : Option ℚ) (hi : ℚ) : ℚ :=
  match m with
  | none => hi
  | some v => if v ≤ hi then hi else v

/-- squishX returns a new drawArea with a squished width (source lines
164-203).  Division is total on ℚ with `q / 0 = 0`; the Go code divides
floats, where `left == right` would instead yield non-finite values, so
theorems about the solved mapping carry a `left ≠ right` hypothesis. -/
def squishX (da : drawArea) (boxes : List glyphBox) : drawArea :=
  if boxes.isEmpty then da else
  let acc := squishXAcc da boxes
  let minx := clampLo acc.minx da.rect.min.x
  let maxx := clampHi acc.maxx da.rect.max.x
  let l := da.rect.min.x + (da.rect.min.x - minx)
  let r := da.rect.max.x - (maxx - da.rect.max.x)
  let n := (acc.left * r - acc.right * l) / (acc.left - acc.right)
  let m := ((acc.left - 1) * r - acc.right * l + l) / (acc.left - acc.right)
  ⟨⟨⟨n, da.rect.min.y⟩, ⟨m - n, da.rect.size.y⟩⟩⟩

/-- One iteration of the scan in `squishY` (`bot` plays the role of `left`,
`top` of `right`). -/
def squishYStep (da : drawArea) (acc : squishAcc) (b : glyphBox) : squishAcc :=
  let acc1 := if ltSent (da.y b.y + b.rect.min.y) acc.minx then
      { acc with left := b.y, minx := some (da.y b.y + b.rect.min.y) }
    else acc
  if gtSent (da.y b.y + b.rect.min.y + b.rect.size.y) acc1.maxx then
    { acc1 with right := b.y, maxx := some (da.y b.y + b.rect.min.y + b.rect.size.y) }
  else acc1

/-- The scan of `squishY` over the supplied boxes plus the two synthetic
boundary boxes `glyphBox{}` and `glyphBox{y: 1}`. -/
def squishYAcc (da : drawArea) (boxes : List glyphBox) : squishAcc :=
  (boxes ++ [glyphBox.mk 0 0 ⟨⟨0, 0⟩, ⟨0, 0⟩⟩, glyphBox.mk 0 1 ⟨⟨0, 0⟩, ⟨0, 0⟩⟩]).foldl
    (squishYStep da) ⟨0, none, 0, none⟩

/-- squishY returns a new drawArea with a squished height (source lines
214-253). -/
def squishY (da : drawArea) (boxes : List glyphBox) : drawArea :=
  if boxes.isEmpty then da else
  let acc := squishYAcc da boxes
  let miny := clampLo acc.minx da.rect.min.y
  let maxy := clampHi acc.maxx da.rect.max.y
  let b := da.rect.min.y + (da.rect.min.y - miny)
  let t := da.rect.max.y - (maxy - da.rect.max.y)
  let n := (acc.left * t - acc.right * b) / (acc.left - acc.right)
  let m := ((acc.left - 1) * t - acc.right * b + b) / (acc.left - acc.right)
  ⟨⟨⟨da.rect.min.x, n⟩, ⟨da.rect.size.x, m - n⟩⟩⟩

/-- slop is some slop for floating point equality (3e-8 as an exact rational). -/
def slop : ℚ := 3 / 100000000

/-- membership for the clip against the right edge. -/
def isLeft (p clip : point) : Bool := decide (p.x ≤ clip.x + slop)

/-- membership for the clip against the left edge. -/
def isRight (p clip : point) : Bool := decide (p.x ≥ clip.x - slop)

/-- membership for the clip against the top edge. -/
def isBelow (p clip : point) : Bool := decide (p.y ≤ clip.y + slop)

/-- membership for the clip against the bottom edge. -/
def isAbove (p clip : point) : Bool := decide (p.y ≥ clip.y - slop)

/-- isect returns the intersection of a line p0→p1 with the clipping line
specified by the clip point and normal.  Division is total on ℚ; the Go code
never divides by zero here when called on a pair straddling an axis-aligned
clip line. -/
def isect (p0 p1 clip norm : point) : point :=
  ((p1.minus p0).scale ((p0.minus clip).dot norm / (p0.minus p1).dot norm)).plus p0

/-- The body of one iteration of the loop in `clip`: the four-way switch on
the membership of the current and next point, producing the updated open run
and emitted run list. -/
def clipBody (inF : point → point → Bool) (cp np cur next : point)
    (l : List point) (lines : List (List point)) : List point × List (List point) :=
  match inF cur cp, inF next cp with
  | true, true => (l ++ [cur], lines)
  | true, false => ([], lines ++ [l ++ [cur, isect cur next cp np]])
  | false, false => (l, lines)
  | false, true => (l ++ [isect cur next cp np], lines)

/-- The loop of `clip` over consecutive point pairs; when the pair is the last
one and the final point is in, that point is appended to the open run, and
after the loop a run longer than one point is kept. -/
def clipGo (inF : point → point → Bool) (cp np : point) :
    point → List point → List point → List (List point) → List (List point)
  | _, [], l, lines => if l.length > 1 then lines ++ [l] else lines
  | cur, next :: rest, l, lines =>
    let s := clipBody inF cp np cur next l lines
    clipGo inF cp np next rest
      (if rest.isEmpty && inF next cp then s.1 ++ [next] else s.1) s.2

/-- clip performs clipping in a single clipping line specified by the norm,
clip point, and in function (source lines 365-393). -/
def clip (inF : point → point → Bool) (cp np : point) (pts : List point) :
    List (List point) :=
  match pts with
  | [] => []
  | cur :: rest => clipGo inF cp np cur rest [] []

/-- The four-stage clipping pipeline of `strokeClippedLine` (clip right,
bottom, left, top); the function strokes each returned run. -/
def clipRuns (da : drawArea) (pts : List point) : List (List point) :=
  let lines0 := clip isLeft ⟨da.rect.max.x, da.rect.min.y⟩ ⟨-1, 0⟩ pts
  let lines1 := (lines0.map (clip isAbove ⟨da.rect.min.x, da.rect.min.y⟩ ⟨0, -1⟩)).flatten
  let lines2 := (lines1.map (clip isRight ⟨da.rect.min.x, da.rect.min.y⟩ ⟨1, 0⟩)).flatten
  (lines2.map (clip isBelow ⟨da.rect.min.x, da.rect.max.y⟩ ⟨0, 1⟩)).flatten

end Plt

namespace Plt

/-- A stand-in for values of the `color.Color` interface; their identity is
irrelevant to the geometry and they are only recorded in command traces.
`none` is the nil interface value. -/
abbrev goColor := Option Nat

/-- LineStyle describes what a line will look like. -/
structure LineStyle where
  color : goColor
  width : ℚ
  dashes : List ℚ
  dashOffs : ℚ

/-- CircleGlyph is a filled circle (`GlyphShape` is a `uint8`; values are
modelled as naturals below 256). -/
def CircleGlyph : Nat := 0

/-- RingGlyph is an outlined circle. -/
def RingGlyph : Nat := 1

/-- A GlyphStyle specifies the look of a glyph used to draw a point. -/
structure GlyphStyle where
  color : goColor
  shape : Nat
  radius : ℚ

/-- Font extents as returned by the external font-measurement capability. -/
structure fontExtents where
  ascent : ℚ
  descent : ℚ
  height : ℚ

/-- A font value from the external `vg` package: its size and measurement
functions. -/
structure fontT where
  size : ℚ
  width : String → ℚ
  extents : fontExtents

/-- A path component; arc start and sweep angles are recorded in units of π
(the source passes the constants 0 and 2π). -/
inductive pathComp where
  | move (x y : ℚ)
  | line (x y : ℚ)
  | arc (x y rad startPi sweepPi : ℚ)
  | close

/-- A command issued to the external canvas capability. -/
inductive canvasCmd where
  | setColor (c : goColor)
  | setLineWidth (w : ℚ)
  | setLineDash (dashes : List ℚ) (offs : ℚ)
  | fill (p : List pathComp)
  | stroke (p : List pathComp)
  | fillText (f : fontT) (x y : ℚ) (s : String)

/-- Whether a canvas command leaves a mark on the surface (fill, stroke or
text) as opposed to only setting drawing state. -/
def isMark : canvasCmd → Bool
  | .fill _ => true
  | .stroke _ => true
  | .fillText _ _ _ _ => true
  | _ => false

/-- vg.Points converts a value in printer points to a `vg.Length`, which is
itself measured in points, so the conversion is the identity. -/
def vgPoints (x : ℚ) : ℚ := x

/-- setLineStyle sets the current line style: the commands it issues to the
canvas. -/
def setLineStyle (sty : LineStyle) : List canvasCmd :=
  [.setColor sty.color, .setLineWidth sty.width, .setLineDash sty.dashes sty.dashOffs]

/-- The name of the default font.  The constant is declared in a repository
file outside the provided sources; its value is irrelevant to every claim
because the font constructor is passed in as a capability. -/
def defaultFont : String := "Times-Roman"

/-- drawGlyph draws a glyph at a specified location (source lines 269-305).
The result is the trace of canvas commands issued together with `some msg`
when the call panics with message `msg`.  `mkFont` is the external
`vg.MakeFont` capability, which may fail. -/
def drawGlyph (mkFont : String → ℚ → Except String fontT) (da : drawArea)
    (sty : GlyphStyle) (pt : point) : List canvasCmd × Option String :=
  if !da.contains pt then ([], none) else
  let pre := setLineStyle ⟨none, vgPoints (1/2), [], 0⟩ ++ [.setColor sty.color]
  if sty.shape = CircleGlyph then
    (pre ++ [.fill [.move (pt.x + sty.radius) pt.y,
      .arc pt.x pt.y sty.radius 0 2, .close]], none)
  else if sty.shape = RingGlyph then
    (pre ++ [.stroke [.move (pt.x + sty.radius) pt.y,
      .arc pt.x pt.y sty.radius 0 2, .close]], none)
  else if 65 ≤ sty.shape ∧ sty.shape ≤ 90 then
    match mkFont defaultFont (sty.radius * 2) with
    | .error e => (pre, some e)
    | .ok font =>
      let str := String.mk [Char.ofNat sty.shape]
      (pre ++ [.fillText font (pt.x - font.width str / 2)
        (pt.y + font.extents.descent) str], none)
  else (pre, some ("Invalid GlyphShape: " ++ toString sty.shape))

end Plt

namespace Plt

/-- Claim C7: squishX applied to an empty list of glyph boxes returns the
original drawing area unchanged, and symmetrically squishY on no boxes is
the identity. -/
theorem squish_empty_id (da : drawArea) : squishX da [] = da ∧ squishY da [] = da :=
  ⟨rfl, rfl⟩

/-- Unfolding of the loop of `clip` at its final check. -/
theorem clipGo_nil (inF : point → point → Bool) (cp np cur : point)
    (l : List point) (lines : List (List point)) :
    clipGo inF cp np cur [] l lines = if l.length > 1 then lines ++ [l] else lines :=
  rfl

/-- Unfolding of the loop of `clip` at a consecutive pair. -/
theorem clipGo_cons (inF : point → point → Bool) (cp np cur next : point)
    (rest l : List point) (lines : List (List point)) :
    clipGo inF cp np cur (next :: rest) l lines =
      clipGo inF cp np next rest
        (if rest.isEmpty && inF next cp then
          (clipBody inF cp np cur next l lines).1 ++ [next]
        else (clipBody inF cp np cur next l lines).1)
        (clipBody inF cp np cur next l lines).2 :=
  rfl

/-- When the current point and every remaining point pass the membership
test, the loop of `clip` extends the open run with all of them and emits it
as the single additional run. -/
theorem clipGo_all_in (inF : point → point → Bool) (cp np : point) :
    ∀ (rest : List point) (cur : point) (l : List point) (lines : List (List point)),
      inF cur cp = true → (∀ p ∈ rest, inF p cp = true) → rest ≠ [] →
      clipGo inF cp np cur rest l lines = lines ++ [l ++ cur :: rest] := by
  intro rest
  induction rest with
  | nil => intro cur l lines _ _ h; exact absurd rfl h
  | cons next rest' ih =>
    intro cur l lines hcur hrest _
    have hnext : inF next cp = true := hrest next (List.mem_cons_self _ _)
    cases rest' with
    | nil =>
      rw [clipGo_cons]
      simp only [clipBody, hcur, hnext, List.isEmpty_nil, Bool.true_and, if_pos]
      rw [clipGo_nil, if_pos (by simp)]
      simp
    | cons b rest'' =>
      have hih := ih next (l ++ [cur]) lines hnext
        (fun p hp => hrest p (List.mem_cons_of_mem _ hp)) (by simp)
      rw [clipGo_cons]
      simp only [clipBody, hcur, hnext, List.isEmpty_cons, Bool.false_and,
        Bool.false_eq_true, if_false, hih]
      simp

/-- A polyline of at least two points all passing the membership test is
returned by `clip` unchanged, as the single run. -/
theorem clip_all_in (inF : point → point → Bool) (cp np : point) :
    ∀ pts : List point, 2 ≤ pts.length → (∀ p ∈ pts, inF p cp = true) →
      clip inF cp np pts = [pts]
  | [], h2, _ => by simp at h2
  | [p], h2, _ => by simp at h2
  | cur :: next :: rest, _, hin => by
    have := clipGo_all_in inF cp np (next :: rest) cur [] []
      (hin cur (by simp)) (fun p hp => hin p (by simp [hp])) (by simp)
    simp [clip, this]

/-- Claim C5: a polyline of at least two points, all passing each of the four
edge membership tests, is returned by the four-stage clipping pipeline as
exactly one run equal to the input, point for point and in order. -/
theorem clipRuns_inside_id (da : drawArea) (pts : List point)
    (h2 : 2 ≤ pts.length)
    (hin : ∀ p ∈ pts,
      isLeft p ⟨da.rect.max.x, da.rect.min.y⟩ = true ∧
      isAbove p ⟨da.rect.min.x, da.rect.min.y⟩ = true ∧
      isRight p ⟨da.rect.min.x, da.rect.min.y⟩ = true ∧
      isBelow p ⟨da.rect.min.x, da.rect.max.y⟩ = true) :
    clipRuns da pts = [pts] := by
  simp only [clipRuns]
  rw [clip_all_in _ _ _ pts h2 (fun p hp => (hin p hp).1)]
  simp only [List.map_cons, List.map_nil, List.flatten_cons, List.flatten_nil,
    List.append_nil]
  rw [clip_all_in _ _ _ pts h2 (fun p hp => (hin p hp).2.1)]
  simp only [List.map_cons, List.map_nil, List.flatten_cons, List.flatten_nil,
    List.append_nil]
  rw [clip_all_in _ _ _ pts h2 (fun p hp => (hin p hp).2.2.1)]
  simp only [List.map_cons, List.map_nil, List.flatten_cons, List.flatten_nil,
    List.append_nil]
  rw [clip_all_in _ _ _ pts h2 (fun p hp => (hin p hp).2.2.2)]

/-- Witness for C5 at a concrete inside polyline. -/
theorem clipRuns_inside_id_w :
    2 ≤ ([⟨1, 1⟩, ⟨2, 2⟩] : List point).length ∧
    (∀ p ∈ ([⟨1, 1⟩, ⟨2, 2⟩] : List point),
      isLeft p ⟨(drawArea.mk ⟨⟨0, 0⟩, ⟨10, 10⟩⟩).rect.max.x,
        (drawArea.mk ⟨⟨0, 0⟩, ⟨10, 10⟩⟩).rect.min.y⟩ = true ∧
      isAbove p ⟨(drawArea.mk ⟨⟨0, 0⟩, ⟨10, 10⟩⟩).rect.min.x,
        (drawArea.mk ⟨⟨0, 0⟩, ⟨10, 10⟩⟩).rect.min.y⟩ = true ∧
      isRight p ⟨(drawArea.mk ⟨⟨0, 0⟩, ⟨10, 10⟩⟩).rect.min.x,
        (drawArea.mk ⟨⟨0, 0⟩, ⟨10, 10⟩⟩).rect.min.y⟩ = true ∧
      isBelow p ⟨(drawArea.mk ⟨⟨0, 0⟩, ⟨10, 10⟩⟩).rect.min.x,
        (drawArea.mk ⟨⟨0, 0⟩, ⟨10, 10⟩⟩).rect.max.y⟩ = true) ∧
    clipRuns ⟨⟨⟨0, 0⟩, ⟨10, 10⟩⟩⟩ [⟨1, 1⟩, ⟨2, 2⟩] = [[⟨1, 1⟩, ⟨2, 2⟩]] :=
  ⟨by norm_num, by norm_num [isLeft, isAbove, isRight, isBelow, rect.max, slop],
    clipRuns_inside_id ⟨⟨⟨0, 0⟩, ⟨10, 10⟩⟩⟩ [⟨1, 1⟩, ⟨2, 2⟩] (by norm_num)
      (by norm_num [isLeft, isAbove, isRight, isBelow, rect.max, slop])⟩

/-- Every run list produced by the loop body has only runs of at least two
points, provided the incoming run list does. -/
theorem clipBody_len (inF : point → point → Bool) (cp np cur next : point)
    (l : List point) (lines : List (List point))
    (hl : ∀ r ∈ lines, 2 ≤ r.length) :
    ∀ r ∈ (clipBody inF cp np cur next l lines).2, 2 ≤ r.length := by
  cases hc : inF cur cp <;> cases hn : inF next cp <;>
    simp only [clipBody, hc, hn] <;> intro r hr
  · exact hl r hr
  · exact hl r hr
  · rcases List.mem_append.mp hr with h | h
    · exact hl r h
    · simp only [List.mem_singleton] at h
      subst h
      simp
  · exact hl r hr

/-- The loop of `clip` only emits runs of at least two points. -/
theorem clipGo_len (inF : point → point → Bool) (cp np : point) :
    ∀ (rest : List point) (cur : point) (l : List point) (lines : List (List point)),
      (∀ r ∈ lines, 2 ≤ r.length) →
      ∀ r ∈ clipGo inF cp np cur rest l lines, 2 ≤ r.length := by
  intro rest
  induction rest with
  | nil =>
    intro cur l lines hl r hr
    simp only [clipGo] at hr
    split at hr
    · rcases List.mem_append.mp hr with h | h
      · exact hl r h
      · simp only [List.mem_singleton] at h
        subst h
        omega
    · exact hl r hr
  | cons next rest' ih =>
    intro cur l lines hl r hr
    simp only [clipGo] at hr
    exact ih next _ _ (clipBody_len inF cp np cur next l lines hl) r hr

/-- Claim C6: every run in the list returned by `clip` contains at least two
points; single-point and empty runs never appear in the output. -/
theorem clip_run_min_length (inF : point → point → Bool) (cp np : point)
    (pts : List point) : ∀ r ∈ clip inF cp np pts, 2 ≤ r.length := by
  cases pts with
  | nil => simp [clip]
  | cons cur rest => exact clipGo_len inF cp np rest cur [] [] (by simp)

/-- Witness for C6 at a concrete clip producing a run. -/
theorem clip_run_min_length_w :
    ([⟨0, 0⟩, ⟨1, 0⟩] : List point) ∈ clip isLeft ⟨5, 0⟩ ⟨-1, 0⟩ [⟨0, 0⟩, ⟨1, 0⟩] ∧
    2 ≤ ([⟨0, 0⟩, ⟨1, 0⟩] : List point).length :=
  ⟨by norm_num [clip, clipGo_cons, clipGo_nil, clipBody, isLeft, slop],
    clip_run_min_length isLeft ⟨5, 0⟩ ⟨-1, 0⟩ [⟨0, 0⟩, ⟨1, 0⟩]
      [⟨0, 0⟩, ⟨1, 0⟩]
      (by norm_num [clip, clipGo_cons, clipGo_nil, clipBody, isLeft, slop])⟩

/-- The mapping sends 0 to the minimum edge. -/
theorem drawArea_x_zero (da : drawArea) : da.x 0 = da.rect.min.x := by
  unfold drawArea.x
  ring

/-- The mapping sends 1 to the maximum edge. -/
theorem drawArea_x_one (da : drawArea) : da.x 1 = da.rect.max.x := by
  unfold drawArea.x
  ring

/-- A scan step leaves `minx` unchanged or records the box's absolute left
edge. -/
theorem squishXStep_minx (da : drawArea) (acc : squishAcc) (b : glyphBox) :
    (squishXStep da acc b).minx = acc.minx ∨
      (squishXStep da acc b).minx = some (da.x b.x + b.rect.min.x) := by
  simp only [squishXStep]
  split <;> split <;> simp

/-- A scan step leaves `maxx` unchanged or records the box's absolute right
edge. -/
theorem squishXStep_maxx (da : drawArea) (acc : squishAcc) (b : glyphBox) :
    (squishXStep da acc b).maxx = acc.maxx ∨
      (squishXStep da acc b).maxx = some (da.x b.x + b.rect.min.x + b.rect.size.x) := by
  simp only [squishXStep]
  split <;> split <;> simp

/-- Folding the scan over boxes whose footprints lie strictly inside the
x-bounds keeps the recorded extreme edges strictly inside those bounds. -/
theorem squishXAcc_fold_bounds (da : drawArea) (bs : List glyphBox) :
    ∀ acc : squishAcc,
      (∀ b ∈ bs, da.rect.min.x < da.x b.x + b.rect.min.x ∧
        da.x b.x + b.rect.min.x + b.rect.size.x < da.rect.max.x) →
      ((∀ v, acc.minx = some v → da.rect.min.x < v) ∧
        (∀ w, acc.maxx = some w → w < da.rect.max.x)) →
      ((∀ v, (bs.foldl (squishXStep da) acc).minx = some v → da.rect.min.x < v) ∧
        (∀ w, (bs.foldl (squishXStep da) acc).maxx = some w → w < da.rect.max.x)) := by
  induction bs with
  | nil => intro acc _ h; simpa using h
  | cons b bs ih =>
    intro acc hb h
    simp only [List.foldl_cons]
    refine ih _ (fun b' hb' => hb b' (List.mem_cons_of_mem _ hb')) ⟨?_, ?_⟩
    · intro v hv
      rcases squishXStep_minx da acc b with h1 | h1
      · exact h.1 v (h1 ▸ hv)
      · rw [h1] at hv
        injection hv with hv
        rw [← hv]
        exact (hb b (List.mem_cons_self _ _)).1
    · intro w hw
      rcases squishXStep_maxx da acc b with h1 | h1
      · exact h.2 w (h1 ▸ hw)
      · rw [h1] at hw
        injection hw with hw
        rw [← hw]
        exact (hb b (List.mem_cons_self _ _)).2

/-- When every supplied box fits strictly inside the x-bounds of an area of
positive width, the two synthetic boundary boxes win the scan: the minimum
edge is the area's own min achieved at anchor 0 and the maximum edge is the
area's own max achieved at anchor 1. -/
theorem squishXAcc_strict (da : drawArea) (boxes : List glyphBox)
    (hS : 0 < da.rect.size.x)
    (hb : ∀ b ∈ boxes, da.rect.min.x < da.x b.x + b.rect.min.x ∧
      da.x b.x + b.rect.min.x + b.rect.size.x < da.rect.max.x) :
    squishXAcc da boxes = ⟨0, some da.rect.min.x, 1, some da.rect.max.x⟩ := by
  have hmm : da.rect.min.x < da.rect.max.x := by
    simp only [rect.max]
    linarith
  obtain ⟨h1, h2⟩ := squishXAcc_fold_bounds da boxes ⟨0, none, 0, none⟩ hb
    (by constructor <;> intro v hv <;> simp at hv)
  unfold squishXAcc
  rw [List.foldl_append]
  simp only [List.foldl_cons, List.foldl_nil]
  set acc0 := boxes.foldl (squishXStep da) ⟨0, none, 0, none⟩ with hacc0
  have hc1 : ltSent (da.x (glyphBox.mk 0 0 ⟨⟨0, 0⟩, ⟨0, 0⟩⟩).x +
      (glyphBox.mk 0 0 ⟨⟨0, 0⟩, ⟨0, 0⟩⟩).rect.min.x) acc0.minx = true := by
    cases hm : acc0.minx with
    | none => simp [ltSent]
    | some v =>
      have := h1 v hm
      simp only [ltSent, drawArea_x_zero]
      simp only [decide_eq_true_eq]
      linarith
  have hz : squishXStep da acc0 (glyphBox.mk 0 0 ⟨⟨0, 0⟩, ⟨0, 0⟩⟩) =
      if gtSent (da.x 0 + 0 + 0) acc0.maxx then
        ⟨0, some (da.x 0 + 0), 0, some (da.x 0 + 0 + 0)⟩
      else ⟨0, some (da.x 0 + 0), acc0.right, acc0.maxx⟩ := by
    simp only [squishXStep, hc1, if_true]
  rw [hz]
  by_cases hg : gtSent (da.x 0 + 0 + 0) acc0.maxx = true
  · rw [if_pos hg]
    have hc2 : ltSent (da.x (1:ℚ) + 0) (some (da.x 0 + 0)) = false := by
      simp only [ltSent, drawArea_x_zero, drawArea_x_one, decide_eq_false_iff_not, not_lt]
      linarith
    simp only [squishXStep, hc2]
    have hc3 : gtSent (da.x (1:ℚ) + 0 + 0) (some (da.x 0 + 0 + 0)) = true := by
      simp only [gtSent, drawArea_x_zero, drawArea_x_one, decide_eq_true_eq]
      linarith
    simp only [hc3, if_true, if_false, Bool.false_eq_true]
    simp [drawArea_x_zero, drawArea_x_one]
  · rw [if_neg hg]
    have hc2 : ltSent (da.x (1:ℚ) + 0) (some (da.x 0 + 0)) = false := by
      simp only [ltSent, drawArea_x_zero, drawArea_x_one, decide_eq_false_iff_not, not_lt]
      linarith
    have hc3 : gtSent (da.x (1:ℚ) + 0 + 0) acc0.maxx = true := by
      cases hm : acc0.maxx with
      | none => simp [gtSent]
      | some w =>
        have := h2 w hm
        simp only [gtSent, drawArea_x_one, decide_eq_true_eq]
        linarith
    simp only [squishXStep, hc2, hc3, if_true, if_false, Bool.false_eq_true]
    simp [drawArea_x_zero, drawArea_x_one]

/-- Claim C3 (amended): for an area of positive width and a non-empty list of
boxes whose footprints lie strictly within the original x-bounds, squishX
returns an area whose rectangle equals the original: the clamps make the
operation a no-op and the remapped interval is never shrunk. -/
theorem squishX_strict_fit_id (da : drawArea) (boxes : List glyphBox)
    (hS : 0 < da.rect.size.x) (hne : boxes ≠ [])
    (hb : ∀ b ∈ boxes, da.rect.min.x < da.x b.x + b.rect.min.x ∧
      da.x b.x + b.rect.min.x + b.rect.size.x < da.rect.max.x) :
    (squishX da boxes).rect = da.rect := by
  have hacc := squishXAcc_strict da boxes hS hb
  have hne' : boxes.isEmpty = false := by
    cases boxes with
    | nil => exact absurd rfl hne
    | cons a l => rfl
  simp only [squishX, hne', Bool.false_eq_true, if_false, hacc]
  simp only [clampLo, clampHi]
  rw [if_pos (le_refl _), if_pos (le_refl _)]
  ext
  · show ((0:ℚ) * _ - 1 * _) / ((0:ℚ) - 1) = da.rect.min.x
    norm_num
  · rfl
  · show _ - ((0:ℚ) * _ - 1 * _) / ((0:ℚ) - 1) = da.rect.size.x
    simp only [rect.max]
    norm_num
    ring
  · rfl

/-- The concrete drawing area of the squish counterexamples and bug
witnesses. -/
def daSq : drawArea := ⟨⟨⟨0, 0⟩, ⟨100, 100⟩⟩⟩

/-- A single box anchored at 1/2 whose footprint edges are exactly the
original x-bounds: it fits, yet it wins the scan over the synthetic anchor-0
box, so squishX is not the identity on it. -/
def boxesC3 : List glyphBox := [glyphBox.mk (1/2) 0 ⟨⟨-50, 0⟩, ⟨50, 0⟩⟩]

/-- Counterexample to claim C3 as stated: every supplied box fits within the
original bounds (non-strictly), yet squishX changes the rectangle. -/
theorem squishX_fit_not_id_cex :
    (daSq.rect.min.x ≤ daSq.x (1/2) + (-50)) ∧
    (daSq.x (1/2) + (-50) + 50 ≤ daSq.rect.max.x) ∧
    (squishX daSq boxesC3).rect ≠ daSq.rect := by
  refine ⟨by norm_num [daSq, drawArea.x, rect.max], by norm_num [daSq, drawArea.x, rect.max], ?_⟩
  norm_num [daSq, boxesC3, squishX, squishXAcc, squishXStep, ltSent, gtSent,
    clampLo, clampHi, drawArea.x, rect.max, rect.mk.injEq, point.mk.injEq]

/-- Witness for the amended claim C3 at a strictly fitting box. -/
theorem squishX_strict_fit_id_w :
    (0:ℚ) < daSq.rect.size.x ∧
    ([glyphBox.mk (1/2) 0 ⟨⟨-10, 0⟩, ⟨20, 0⟩⟩] : List glyphBox) ≠ [] ∧
    (∀ b ∈ ([glyphBox.mk (1/2) 0 ⟨⟨-10, 0⟩, ⟨20, 0⟩⟩] : List glyphBox),
      daSq.rect.min.x < daSq.x b.x + b.rect.min.x ∧
      daSq.x b.x + b.rect.min.x + b.rect.size.x < daSq.rect.max.x) ∧
    (squishX daSq [glyphBox.mk (1/2) 0 ⟨⟨-10, 0⟩, ⟨20, 0⟩⟩]).rect = daSq.rect :=
  ⟨by norm_num [daSq], by simp,
    by norm_num [daSq, drawArea.x, rect.max],
    squishX_strict_fit_id daSq _ (by norm_num [daSq]) (by simp)
      (by norm_num [daSq, drawArea.x, rect.max])⟩

/-- The solved mapping sends the `left` anchor to the target `l`. -/
theorem squish_solve_left (L R l r : ℚ) (h : L - R ≠ 0) :
    L * (((L - 1) * r - R * l + l) / (L - R) - (L * r - R * l) / (L - R)) +
      (L * r - R * l) / (L - R) = l := by
  field_simp
  ring

/-- The solved mapping sends the `right` anchor to the target `r`. -/
theorem squish_solve_right (L R l r : ℚ) (h : L - R ≠ 0) :
    R * (((L - 1) * r - R * l + l) / (L - R) - (L * r - R * l) / (L - R)) +
      (L * r - R * l) / (L - R) = r := by
  field_simp
  ring

/-- Claim C2 (amended): for a non-empty box list whose scan yields distinct
extreme anchors, the returned area's mapping sends the left-extreme anchor
itself (without its footprint offset) to the reflected target
`min + (min - minx)` and the right-extreme anchor to `max - (maxx - max)`,
with `minx`/`maxx` the clamped extreme edges. -/
theorem squishX_anchor_targets (da : drawArea) (boxes : List glyphBox)
    (hne : boxes ≠ [])
    (hlr : (squishXAcc da boxes).left ≠ (squishXAcc da boxes).right) :
    (squishX da boxes).x (squishXAcc da boxes).left =
      da.rect.min.x + (da.rect.min.x - clampLo (squishXAcc da boxes).minx da.rect.min.x) ∧
    (squishX da boxes).x (squishXAcc da boxes).right =
      da.rect.max.x - (clampHi (squishXAcc da boxes).maxx da.rect.max.x - da.rect.max.x) := by
  have hne' : boxes.isEmpty = false := by
    cases boxes with
    | nil => exact absurd rfl hne
    | cons a l => rfl
  have hsub : (squishXAcc da boxes).left - (squishXAcc da boxes).right ≠ 0 :=
    sub_ne_zero.mpr hlr
  simp only [squishX, hne', Bool.false_eq_true, if_false, drawArea.x, rect.max]
  constructor
  · rw [show ∀ n s : ℚ, n + s - n = s from fun n s => by ring]
    exact squish_solve_left _ _ _ _ hsub
  · rw [show ∀ n s : ℚ, n + s - n = s from fun n s => by ring]
    exact squish_solve_right _ _ _ _ hsub

/-- The two boxes of the C2 counterexample: extreme anchors 3/10 and 7/10,
both clamps inactive. -/
def boxesC2 : List glyphBox :=
  [glyphBox.mk (3/10) 0 ⟨⟨-40, 0⟩, ⟨10, 0⟩⟩, glyphBox.mk (7/10) 0 ⟨⟨-10, 0⟩, ⟨60, 0⟩⟩]

/-- Counterexample to claim C2 as stated: with distinct extreme anchors and
no clamp firing, the left-extreme glyph's footprint is not sent to the
original min edge. -/
theorem squishX_footprint_target_cex :
    (squishXAcc daSq boxesC2).left = 3/10 ∧
    (squishXAcc daSq boxesC2).right = 7/10 ∧
    (squishXAcc daSq boxesC2).minx = some (-10) ∧
    (squishXAcc daSq boxesC2).maxx = some 120 ∧
    ¬((-10:ℚ) ≥ daSq.rect.min.x) ∧
    ¬((120:ℚ) ≤ daSq.rect.max.x) ∧
    (squishX daSq boxesC2).x (squishXAcc daSq boxesC2).left + (-40) ≠ daSq.rect.min.x := by
  norm_num [daSq, boxesC2, squishX, squishXAcc, squishXStep, ltSent, gtSent,
    clampLo, clampHi, drawArea.x, rect.max]

/-- Witness for the amended claim C2 at the concrete two-box input. -/
theorem squishX_anchor_targets_w :
    boxesC2 ≠ [] ∧
    (squishXAcc daSq boxesC2).left ≠ (squishXAcc daSq boxesC2).right ∧
    ((squishX daSq boxesC2).x (squishXAcc daSq boxesC2).left =
      daSq.rect.min.x + (daSq.rect.min.x - clampLo (squishXAcc daSq boxesC2).minx daSq.rect.min.x) ∧
     (squishX daSq boxesC2).x (squishXAcc daSq boxesC2).right =
      daSq.rect.max.x - (clampHi (squishXAcc daSq boxesC2).maxx daSq.rect.max.x - daSq.rect.max.x)) :=
  ⟨by simp [boxesC2],
    by norm_num [daSq, boxesC2, squishXAcc, squishXStep, ltSent, gtSent,
      drawArea.x, rect.max],
    squishX_anchor_targets daSq boxesC2 (by simp [boxesC2])
      (by norm_num [daSq, boxesC2, squishXAcc, squishXStep, ltSent, gtSent,
        drawArea.x, rect.max])⟩

/-- The single box of the C1 bug evidence: anchored at 1/2 and overhanging
the left bound by 10 device units. -/
def boxesC1 : List glyphBox := [glyphBox.mk (1/2) 0 ⟨⟨-60, 0⟩, ⟨0, 0⟩⟩]

/-- Claim C1 fails on the code: the box at anchor 1/2 overhangs the left
bound before squishing (edge -10 < 0), and after squishX its footprint edge
under the new mapping is -50, still left of the original min bound instead
of inside it. -/
theorem squishX_escape_concrete :
    daSq.x (1/2) + (-60) < daSq.rect.min.x ∧
    (squishX daSq boxesC1).x (1/2) + (-60) = -50 ∧
    (squishX daSq boxesC1).x (1/2) + (-60) < daSq.rect.min.x := by
  refine ⟨by norm_num [daSq, drawArea.x, rect.max], ?_, ?_⟩ <;>
    norm_num [daSq, boxesC1, squishX, squishXAcc, squishXStep, ltSent, gtSent,
      clampLo, clampHi, drawArea.x, rect.max]

/-- The drawing area of the C4 bug evidence. -/
def daC4 : drawArea := ⟨⟨⟨0, 0⟩, ⟨10, 10⟩⟩⟩

/-- A two-point polyline entirely right of the area (both x-coordinates
exceed the right bound), grazing the slop band of the right edge at a steep
slope. -/
def ptsC4 : List point := [⟨10 + slop, 20⟩, ⟨10 + slop + slop/20, 21⟩]

/-- Claim C4 fails on the code: the polyline lies entirely outside the
rectangle (strictly right of the maximum x bound, so no segment point is
contained), yet the four-stage pipeline returns a phantom run crossing the
area, produced by an extrapolated intersection in the slop band. -/
theorem clip_outside_phantom_run :
    (∀ p ∈ ptsC4, daC4.contains p = false) ∧
    (∀ p ∈ ptsC4, daC4.rect.max.x < p.x) ∧
    clipRuns daC4 ptsC4 = [[⟨10 + slop/2, 10⟩, ⟨10, 0⟩]] := by
  refine ⟨?_, ?_, ?_⟩
  · norm_num [ptsC4, daC4, drawArea.contains, rect.max, slop]
  · norm_num [ptsC4, daC4, rect.max, slop]
  · norm_num [ptsC4, daC4, clipRuns, clip, clipGo_cons, clipGo_nil, clipBody,
      isect, isLeft, isRight, isAbove, isBelow, slop, point.dot, point.minus,
      point.plus, point.scale, rect.max]

/-- Claim C8: the unit-interval-to-device mapping is affine with
`x 0 = min.x`, `x 1 = max.x`, `x (1/2)` the midpoint, and
`x u = min.x + u * size.x` for every `u` (no clamping), symmetrically for y. -/
theorem drawArea_xy_affine (da : drawArea) (u : ℚ) :
    da.x u = da.rect.min.x + u * da.rect.size.x ∧
    da.x 0 = da.rect.min.x ∧ da.x 1 = da.rect.max.x ∧
    da.x (1/2) = (da.rect.min.x + da.rect.max.x) / 2 ∧
    da.y u = da.rect.min.y + u * da.rect.size.y ∧
    da.y 0 = da.rect.min.y ∧ da.y 1 = da.rect.max.y ∧
    da.y (1/2) = (da.rect.min.y + da.rect.max.y) / 2 := by
  refine ⟨?_, ?_, ?_, ?_, ?_, ?_, ?_, ?_⟩ <;>
    simp only [drawArea.x, drawArea.y, rect.max] <;> ring

/-- Claim C9: for a glyph style whose shape is neither CircleGlyph nor
RingGlyph nor an uppercase ASCII letter code, drawGlyph at a contained point
panics with a message naming the invalid shape, and no mark-leaving command
(fill, stroke or text) is issued before the panic. -/
theorem drawGlyph_invalid_shape (mkFont : String → ℚ → Except String fontT)
    (da : drawArea) (sty : GlyphStyle) (pt : point)
    (hin : da.contains pt = true) (h256 : sty.shape < 256)
    (h0 : sty.shape ≠ CircleGlyph) (h1 : sty.shape ≠ RingGlyph)
    (hAZ : ¬(65 ≤ sty.shape ∧ sty.shape ≤ 90)) :
    (drawGlyph mkFont da sty pt).2 =
      some ("Invalid GlyphShape: " ++ toString sty.shape) ∧
    ∀ c ∈ (drawGlyph mkFont da sty pt).1, isMark c = false := by
  have hglyph : drawGlyph mkFont da sty pt =
      (setLineStyle ⟨none, vgPoints (1/2), [], 0⟩ ++ [.setColor sty.color],
        some ("Invalid GlyphShape: " ++ toString sty.shape)) := by
    simp [drawGlyph, hin, h0, h1, hAZ]
  rw [hglyph]
  exact ⟨rfl, by simp [setLineStyle, isMark]⟩

/-- Witness for C9 at shape value 2 inside a concrete area. -/
theorem drawGlyph_invalid_shape_w :
    (drawArea.mk ⟨⟨0, 0⟩, ⟨10, 10⟩⟩).contains ⟨5, 5⟩ = true ∧
    (2:Nat) < 256 ∧ (2:Nat) ≠ CircleGlyph ∧ (2:Nat) ≠ RingGlyph ∧
    ¬(65 ≤ (2:Nat) ∧ (2:Nat) ≤ 90) ∧
    ((drawGlyph (fun _ _ => Except.error "no font") ⟨⟨⟨0, 0⟩, ⟨10, 10⟩⟩⟩
        ⟨none, 2, 1⟩ ⟨5, 5⟩).2 =
      some ("Invalid GlyphShape: " ++ toString (2:Nat)) ∧
     ∀ c ∈ (drawGlyph (fun _ _ => Except.error "no font") ⟨⟨⟨0, 0⟩, ⟨10, 10⟩⟩⟩
        ⟨none, 2, 1⟩ ⟨5, 5⟩).1, isMark c = false) :=
  ⟨by norm_num [drawArea.contains, rect.max], by norm_num,
    by norm_num [CircleGlyph], by norm_num [RingGlyph], by norm_num,
    drawGlyph_invalid_shape (fun _ _ => Except.error "no font")
      ⟨⟨⟨0, 0⟩, ⟨10, 10⟩⟩⟩ ⟨none, 2, 1⟩ ⟨5, 5⟩
      (by norm_num [drawArea.contains, rect.max]) (by norm_num)
      (by norm_num [CircleGlyph]) (by norm_num [RingGlyph]) (by norm_num)⟩

/-- Claim C10: for every glyph style and every point not contained in the
drawing area, drawGlyph returns without issuing any canvas command and
without failing, whatever the shape: the containment check precedes shape
validation. -/
theorem drawGlyph_outside_noop (mkFont : String → ℚ → Except String fontT)
    (da : drawArea) (sty : GlyphStyle) (pt : point)
    (h : da.contains pt = false) :
    drawGlyph mkFont da sty pt = ([], none) := by
  simp [drawGlyph, h]

/-- Witness for C10 at an outside point with an invalid shape. -/
theorem drawGlyph_outside_noop_w :
    (drawArea.mk ⟨⟨0, 0⟩, ⟨10, 10⟩⟩).contains ⟨20, 5⟩ = false ∧
    drawGlyph (fun _ _ => Except.error "no font") ⟨⟨⟨0, 0⟩, ⟨10, 10⟩⟩⟩
      ⟨none, 7, 1⟩ ⟨20, 5⟩ = ([], none) :=
  ⟨by norm_num [drawArea.contains, rect.max],
    drawGlyph_outside_noop (fun _ _ => Except.error "no font")
      ⟨⟨⟨0, 0⟩, ⟨10, 10⟩⟩⟩ ⟨none, 7, 1⟩ ⟨20, 5⟩
      (by norm_num [drawArea.contains, rect.max])⟩

end Plt
